import Mathlib

/-!
Verification of the NestJS role-based user-management backend.

The development shallowly embeds the authentication and authorization core:
the role enum and the `RolesGuard` role check (`auth/guard/roles.guard.ts`),
bcrypt hashing in a symbolic model, the user store operations of
`users.service.ts` and the controller wrappers of `users.controller.ts`,
the seeding routine of `seed/seed.service.ts`, credential validation and
login of `auth.service.ts`, and the JWT sign/verify round trip of
`auth.service.ts` together with `jwt.strategy.ts`.
-/

/-- The role enum of `users/entities/users.enitity.ts`:
SUPERADMIN = 'superadmin', ADMIN = 'admin', USER = 'user'. -/
inductive UserRole
  | superadmin
  | admin
  | user
deriving DecidableEq, Repr

/-- The string value each enum member carries in the source. -/
def UserRole.toStr : UserRole → String
  | .superadmin => "superadmin"
  | .admin => "admin"
  | .user => "user"

/-- Character-list version of a leading-segment test, used to embed
JavaScript's `String.prototype.includes`. -/
def listLeads : List Char → List Char → Bool
  | [], _ => true
  | _ :: _, [] => false
  | a :: as, b :: bs => a == b && listLeads as bs

/-- Helper scanning every suffix of the haystack for the needle. -/
def strIncludesAux (needle : List Char) : List Char → Bool
  | [] => listLeads needle []
  | c :: cs => listLeads needle (c :: cs) || strIncludesAux needle cs

/-- JavaScript `hay.includes(needle)`: substring containment. -/
def strIncludes (hay needle : String) : Bool :=
  strIncludesAux needle.toList hay.toList

/-- `RolesGuard.canActivate` of `auth/guard/roles.guard.ts`.
`requiredRoles` is the metadata the reflector returns: `none` when no
`@Roles` decorator is attached (JavaScript `undefined`, so `!requiredRoles`
is true and the guard returns true), `some roles` otherwise (an array,
truthy even when empty). The guard then evaluates
`requiredRoles.some((role) => user.role?.includes(role))`, a substring
test of each required role against the identity's role string. -/
def canActivate (requiredRoles : Option (List UserRole)) (userRole : String) : Bool :=
  match requiredRoles with
  | none => true
  | some roles => roles.any (fun r => strIncludes userRole r.toStr)

/-- Symbolic model of the string space touched by bcrypt: a value is either
an ordinary string (user input, stored literal) or the digest
`bcrypt.hash(input, 10)` produced with a fresh salt. Distinct salts model
the per-call salting; a digest is never equal to any literal string. -/
inductive SVal
  | lit (s : String)
  | bcrypt (salt : Nat) (input : SVal)
deriving DecidableEq, Repr

/-- `bcrypt.compare(p, d)`: recompute with the salt embedded in the digest
`d` and report whether it matches; a non-digest value deterministically
fails to match. -/
def bcryptCompare (p d : SVal) : Bool :=
  match d with
  | .bcrypt _ inner => decide (p = inner)
  | .lit _ => false

/-- A row of the `Users` entity: uuid id (modelled as the insertion
counter), unique username, `password` column holding whatever string the
service wrote, and a role. -/
structure UserRec where
  id : Nat
  username : String
  password : SVal
  role : UserRole
deriving DecidableEq, Repr

/-- The TypeORM repository state: the stored rows plus the id counter and
the fresh-salt counter used to model uuid generation and bcrypt salting. -/
structure Store where
  users : List UserRec
  nextId : Nat
  nextSalt : Nat
deriving DecidableEq, Repr

/-- A store with no rows, as before bootstrap. -/
def emptyStore : Store := ⟨[], 0, 0⟩

/-- `UsersService.findOne(username)`:
`userRepository.findOne({ where: { username } })`. -/
def findOne (st : Store) (username : String) : Option UserRec :=
  st.users.find? (fun u => u.username == username)

/-- `UsersService.create(username, password, role)`: hashes the incoming
password with `bcrypt.hash(password, 10)` and saves the new row. Returns
the saved row and the new store. -/
def usersCreate (st : Store) (username : String) (password : SVal) (role : UserRole) :
    UserRec × Store :=
  let hashedPassword := SVal.bcrypt st.nextSalt password
  let u : UserRec := ⟨st.nextId, username, hashedPassword, role⟩
  (u, ⟨st.users ++ [u], st.nextId + 1, st.nextSalt + 1⟩)

/-- The error outcomes visible in the embedded slice: the service's
`NotFoundException` and the controller's `ForbiddenException`. -/
inductive ApiError
  | notFound
  | forbidden
deriving DecidableEq, Repr

/-- `UpdateUserDto`: each field independently optional. -/
structure UpdateUserDto where
  username : Option String
  password : Option SVal
  role : Option UserRole
deriving DecidableEq, Repr

/-- TypeORM `repository.update(id, partial)` applied to one row: the
fields present in the partial overwrite the row's fields. Note the
service passes the dto through with no hashing of the password. -/
def applyUpdate (dto : UpdateUserDto) (u : UserRec) : UserRec :=
  { u with
    username := dto.username.getD u.username
    password := dto.password.getD u.password
    role := dto.role.getD u.role }

/-- `UsersService.update(id, user)`: `userRepository.update(id, user)`;
when `result.affected === 0` it throws `NotFoundException`. -/
def usersUpdate (st : Store) (id : Nat) (dto : UpdateUserDto) : Except ApiError Store :=
  let affected := (st.users.filter (fun u => u.id == id)).length
  if affected == 0 then
    .error ApiError.notFound
  else
    .ok { st with users := st.users.map (fun u => if u.id == id then applyUpdate dto u else u) }

/-- `UsersService.delete(id)`: `userRepository.delete(id)`; when
`result.affected === 0` it throws `NotFoundException`. -/
def usersDelete (st : Store) (id : Nat) : Except ApiError Store :=
  let affected := (st.users.filter (fun u => u.id == id)).length
  if affected == 0 then
    .error ApiError.notFound
  else
    .ok { st with users := st.users.filter (fun u => u.id != id) }

/-- `UsersService.findAll()`: `userRepository.find()` returns the full
rows, password column included. -/
def usersFindAll (st : Store) : List UserRec :=
  st.users

/-- `UsersController.update`: wraps the service call in try/catch; any
thrown error is replaced by `ForbiddenException('No access to update
user.')` before it reaches the HTTP caller. -/
def controllerUpdate (st : Store) (id : Nat) (dto : UpdateUserDto) :
    Except ApiError (Store × String) :=
  match usersUpdate st id dto with
  | .ok st' => .ok (st', "User updated successfully.")
  | .error _ => .error ApiError.forbidden

/-- `UsersController.delete`: wraps the service call in try/catch; any
thrown error is replaced by `ForbiddenException('No access to delete
user.')` before it reaches the HTTP caller. -/
def controllerDelete (st : Store) (id : Nat) : Except ApiError (Store × String) :=
  match usersDelete st id with
  | .ok st' => .ok (st', "User deleted successfully.")
  | .error _ => .error ApiError.forbidden

/-- `SeedService.seed()`: look up "superadmin"; when absent, compute
`bcrypt.hash('superadmin', 10)` and pass THAT DIGEST as the password
argument of `UsersService.create` (which hashes it a second time). The
fresh salt for the direct hash call is drawn from the store's salt
counter. -/
def seed (st : Store) : Store :=
  match findOne st "superadmin" with
  | some _ => st
  | none =>
      let hashedPassword := SVal.bcrypt st.nextSalt (SVal.lit "superadmin")
      let st' : Store := { st with nextSalt := st.nextSalt + 1 }
      (usersCreate st' "superadmin" hashedPassword UserRole.superadmin).2

/-- The per-request resolved principal, as built by `JwtStrategy.validate`:
`{ userId: payload.sub, username: payload.username, role: payload.role }`. -/
structure AuthIdentity where
  userId : Nat
  username : String
  role : UserRole
deriving DecidableEq, Repr

/-- `AuthService.validateUser(username, pass)`: find the user, run
`bcrypt.compare(pass, user.password)`, and on success return the record
with the password field stripped (here: the resolved identity). -/
def validateUser (st : Store) (username : String) (pass : SVal) : Option AuthIdentity :=
  match findOne st username with
  | some u => if bcryptCompare pass u.password then some ⟨u.id, u.username, u.role⟩ else none
  | none => none

/-- Claims carried by a signed token:
`{ username, sub: user.id, role }` plus issued-at and expiry. -/
structure JwtPayload where
  sub : Nat
  username : String
  role : UserRole
  iat : Nat
  exp : Nat
deriving DecidableEq, Repr

/-- A signed token in the symbolic model: the payload plus the signing
secret standing for the HMAC signature. -/
structure SignedToken where
  payload : JwtPayload
  sig : String
deriving DecidableEq, Repr

/-- `JwtModule.register({ signOptions: { expiresIn: '60m' } })`, in
seconds. -/
def tokenTTL : Nat := 3600

/-- `this.jwtService.sign(payload)` inside `AuthService.login`: embed
subject id, username and role, stamp issued-at and expiry, sign with the
process-wide secret. -/
def signToken (secret : String) (now : Nat) (id : AuthIdentity) : SignedToken :=
  ⟨⟨id.userId, id.username, id.role, now, now + tokenTTL⟩, secret⟩

/-- Outcomes of token verification. -/
inductive VerifyResult
  | ok (id : AuthIdentity)
  | badSignature
  | expired
deriving DecidableEq, Repr

/-- Token verification as performed by passport-jwt with
`ignoreExpiration: false` followed by `JwtStrategy.validate`: check the
signature, reject when the current time has reached the expiry, and
otherwise rebuild the identity from the claims. -/
def verifyToken (secret : String) (now : Nat) (t : SignedToken) : VerifyResult :=
  if t.sig = secret then
    if t.payload.exp ≤ now then .expired
    else .ok ⟨t.payload.sub, t.payload.username, t.payload.role⟩
  else .badSignature

/-- The login flow (`LocalStrategy.validate` then `AuthService.login`):
validate the credentials and, on success, return a signed token. -/
def login (st : Store) (secret : String) (now : Nat) (username : String) (pass : SVal) :
    Option SignedToken :=
  (validateUser st username pass).map (signToken secret now)

/-- On the three role strings of the enum, the guard's substring test
holds exactly when the required role equals the identity's role, or the
identity is SUPERADMIN and the required role is ADMIN ('superadmin'
contains 'admin' as a substring). -/
theorem strIncludes_role_char (r req : UserRole) :
    strIncludes r.toStr req.toStr = true ↔
      (req = r ∨ (r = UserRole.superadmin ∧ req = UserRole.admin)) := by
  cases r <;> cases req <;> decide

/-- C1: after a fresh seed of an empty store, login with username
"superadmin" and password "superadmin" fails: the seeding routine passes
an already-bcrypt-hashed string into `UsersService.create`, which hashes
it a second time, so the stored digest never verifies against the
plaintext "superadmin". -/
theorem seeded_superadmin_login_fails (secret : String) (now : Nat) :
    login (seed emptyStore) secret now "superadmin" (SVal.lit "superadmin") = none := by
  have h : validateUser (seed emptyStore) "superadmin" (SVal.lit "superadmin") = none := by
    decide
  simp [login, h]

/-- C2: an update that supplies a password persists the plaintext, not a
digest: creating a user and then updating it with password "newpass"
leaves the literal "newpass" in the password column, and a literal is
never a bcrypt digest. -/
theorem update_persists_plaintext_password :
    controllerUpdate (usersCreate emptyStore "alice" (SVal.lit "pw") UserRole.user).2 0
        ⟨none, some (SVal.lit "newpass"), none⟩ =
      .ok (⟨[⟨0, "alice", SVal.lit "newpass", UserRole.user⟩], 1, 1⟩,
        "User updated successfully.") ∧
    ∀ salt q, SVal.lit "newpass" ≠ SVal.bcrypt salt q := by
  refine ⟨by rfl, ?_⟩
  intro salt q h
  exact SVal.noConfusion h

/-- C3: the list-users result serializes the stored password digest: on a
freshly seeded store, `findAll` returns the full row, password column
included. -/
theorem findAll_returns_password_hashes :
    usersFindAll (seed emptyStore) =
      [⟨0, "superadmin", SVal.bcrypt 1 (SVal.bcrypt 0 (SVal.lit "superadmin")),
        UserRole.superadmin⟩] := by
  rfl

/-- C4 counterexample: with required roles = [ADMIN], an identity whose
role is SUPERADMIN is Allowed although SUPERADMIN is not an element of
the required set — the guard's substring test accepts it. -/
theorem exact_match_claim_counterexample :
    canActivate (some [UserRole.admin]) UserRole.superadmin.toStr = true ∧
      UserRole.superadmin ∉ [UserRole.admin] := by
  decide

/-- C4 (amended): for a declared required-role list, the guard Allows iff
the identity's role is in the list, or the identity is SUPERADMIN and the
list contains ADMIN (the substring quirk); in particular SUPERADMIN does
satisfy an ADMIN-only requirement but not a USER-only one. -/
theorem canActivate_allow_iff (rs : List UserRole) (r : UserRole) :
    canActivate (some rs) r.toStr = true ↔
      (r ∈ rs ∨ (r = UserRole.superadmin ∧ UserRole.admin ∈ rs)) := by
  simp only [canActivate, List.any_eq_true]
  constructor
  · rintro ⟨req, hreq, hsub⟩
    rcases (strIncludes_role_char r req).mp hsub with rfl | ⟨hr, rfl⟩
    · exact Or.inl hreq
    · exact Or.inr ⟨hr, hreq⟩
  · rintro (hmem | ⟨rfl, hadmin⟩)
    · exact ⟨r, hmem, (strIncludes_role_char r r).mpr (Or.inl rfl)⟩
    · exact ⟨UserRole.admin, hadmin,
        (strIncludes_role_char UserRole.superadmin UserRole.admin).mpr (Or.inr ⟨rfl, rfl⟩)⟩

/-- C5 counterexample: an empty (but present) required-role list Denies a
USER identity — a JavaScript empty array is truthy, so the guard skips
the `!requiredRoles` early return and `[].some(...)` is false. -/
theorem empty_roles_array_denies :
    canActivate (some []) UserRole.user.toStr = false := by
  rfl

/-- C5 (amended): an absent required-role declaration (no roles metadata)
Allows any identity regardless of role, while a present-but-empty list
Denies any identity. -/
theorem absent_metadata_allows_empty_array_denies (userRole : String) :
    canActivate none userRole = true ∧ canActivate (some []) userRole = false :=
  ⟨rfl, rfl⟩

/-- C6 counterexample: deleting id 0 on an empty store surfaces Forbidden
to the external caller, not NotFound — the controller's catch block
replaces the service's NotFound error. -/
theorem delete_missing_id_forbidden_not_notfound :
    controllerDelete emptyStore 0 = .error ApiError.forbidden ∧
      ApiError.forbidden ≠ ApiError.notFound :=
  ⟨rfl, by decide⟩

/-- C6 (amended): on an id with no matching row, the service layer
signals NotFound for both delete and update, but the controller catches
the error and the external caller of the endpoint receives Forbidden. -/
theorem missing_id_signals_notfound_surfaces_forbidden (st : Store) (id : Nat)
    (dto : UpdateUserDto) (h : ∀ u ∈ st.users, u.id ≠ id) :
    usersDelete st id = .error ApiError.notFound ∧
    controllerDelete st id = .error ApiError.forbidden ∧
    usersUpdate st id dto = .error ApiError.notFound ∧
    controllerUpdate st id dto = .error ApiError.forbidden := by
  have hfil : st.users.filter (fun u => u.id == id) = [] := by
    apply List.filter_eq_nil_iff.mpr
    intro u hu
    simp [h u hu]
  have hdel : usersDelete st id = .error ApiError.notFound := by
    simp [usersDelete, hfil]
  have hupd : usersUpdate st id dto = .error ApiError.notFound := by
    simp [usersUpdate, hfil]
  exact ⟨hdel, by simp [controllerDelete, hdel], hupd, by simp [controllerUpdate, hupd]⟩

/-- Witness for the amended C6 theorem at the empty store and id 0. -/
theorem missing_id_signals_notfound_surfaces_forbidden_witness :
    (∀ u ∈ emptyStore.users, u.id ≠ 0) ∧
    (usersDelete emptyStore 0 = .error ApiError.notFound ∧
     controllerDelete emptyStore 0 = .error ApiError.forbidden ∧
     usersUpdate emptyStore 0 ⟨none, none, none⟩ = .error ApiError.notFound ∧
     controllerUpdate emptyStore 0 ⟨none, none, none⟩ = .error ApiError.forbidden) :=
  ⟨by simp [emptyStore],
    missing_id_signals_notfound_surfaces_forbidden emptyStore 0 ⟨none, none, none⟩
      (by simp [emptyStore])⟩

/-- C7: verifying a token freshly issued for an identity, with the same
secret and before the token's expiry, yields back exactly that identity. -/
theorem token_roundtrip (id : AuthIdentity) (secret : String) (t0 now : Nat)
    (h : now < t0 + tokenTTL) :
    verifyToken secret now (signToken secret t0 id) = VerifyResult.ok id := by
  have h' : ¬(t0 + tokenTTL ≤ now) := Nat.not_le.mpr h
  cases id with
  | mk userId username role => simp [signToken, verifyToken, h']

/-- Witness for C7 at a concrete identity, secret and times. -/
theorem token_roundtrip_witness :
    5 < 0 + tokenTTL ∧
      verifyToken "secret" 5 (signToken "secret" 0 ⟨1, "superadmin", UserRole.superadmin⟩) =
        VerifyResult.ok ⟨1, "superadmin", UserRole.superadmin⟩ :=
  ⟨by decide, token_roundtrip ⟨1, "superadmin", UserRole.superadmin⟩ "secret" 0 5 (by decide)⟩

/-- C8: seeding is idempotent — when a user with username "superadmin"
already exists, `seed` leaves the store completely unchanged. -/
theorem seed_idempotent (st : Store) (h : ∃ u, findOne st "superadmin" = some u) :
    seed st = st := by
  obtain ⟨u, hu⟩ := h
  simp [seed, hu]

/-- Witness for C8: seeding twice from empty equals seeding once. -/
theorem seed_idempotent_witness :
    (∃ u, findOne (seed emptyStore) "superadmin" = some u) ∧
      seed (seed emptyStore) = seed emptyStore :=
  ⟨⟨⟨0, "superadmin", SVal.bcrypt 1 (SVal.bcrypt 0 (SVal.lit "superadmin")),
      UserRole.superadmin⟩, rfl⟩,
    seed_idempotent (seed emptyStore)
      ⟨⟨0, "superadmin", SVal.bcrypt 1 (SVal.bcrypt 0 (SVal.lit "superadmin")),
        UserRole.superadmin⟩, rfl⟩⟩

/-- C9: an ADMIN identity is Denied by a requirement listing only
SUPERADMIN ('admin' does not contain 'superadmin' as a substring). -/
theorem admin_denied_for_superadmin_only :
    canActivate (some [UserRole.superadmin]) UserRole.admin.toStr = false := by
  rfl

/-- C10: whenever the required-role list contains ADMIN, a SUPERADMIN
identity is Allowed, because the guard tests substring containment and
'superadmin' contains 'admin'. -/
theorem superadmin_allowed_when_admin_required (rs : List UserRole)
    (h : UserRole.admin ∈ rs) :
    canActivate (some rs) UserRole.superadmin.toStr = true := by
  simp only [canActivate, List.any_eq_true]
  exact ⟨UserRole.admin, h, by decide⟩

/-- Witness for C10 at the singleton list [ADMIN]. -/
theorem superadmin_allowed_when_admin_required_witness :
    UserRole.admin ∈ [UserRole.admin] ∧
      canActivate (some [UserRole.admin]) UserRole.superadmin.toStr = true :=
  ⟨by decide, superadmin_allowed_when_admin_required [UserRole.admin] (by decide)⟩
